import Mathlib

/-!
Verification development for the `ionic-cache` repository
(`CacheService` + `CacheStorageService` and their helpers).

The TypeScript source is shallowly embedded: JavaScript runtime values are
modelled by the inductive `JSValue`; promise-returning methods become total
Lean functions returning `CResult`; the underlying Ionic `Storage` becomes an
association list from raw (prefixed) keys to stored records; `Date.now()` and
`navigator.onLine` are passed in explicitly.  String operations used by the
source (`startsWith`, `substr`, `split`) are modelled on the character list of
the Lean `String`.
-/

namespace IonicCache

/-- Model of a JavaScript runtime value as passed to / returned by the cache.
JSON-representable data is covered by the first seven constructors; `blob`
models a binary `Blob` with its MIME `type` and its content bytes. -/
inductive JSValue where
  | null
  | undefined
  | bool (b : Bool)
  | num (n : Int)
  | str (s : String)
  | arr (elems : List JSValue)
  | obj (fields : List (String × JSValue))
  | blob (mime : String) (bytes : List Nat)
deriving Repr

/-- JavaScript `typeof` on a modelled value (`typeof null = "object"`). -/
def typeofJS : JSValue → String
  | .null => "object"
  | .undefined => "undefined"
  | .bool _ => "boolean"
  | .num _ => "number"
  | .str _ => "string"
  | .arr _ => "object"
  | .obj _ => "object"
  | .blob _ _ => "object"

/-- JavaScript truthiness of a modelled value. -/
def truthy : JSValue → Bool
  | .null => false
  | .undefined => false
  | .bool b => b
  | .num n => n != 0
  | .str s => s != ""
  | .arr _ => true
  | .obj _ => true
  | .blob _ _ => true

/-- `data.constructor.name`; `none` models the `TypeError` thrown by the
property access when `data` is `null` or `undefined`. -/
def constructorName : JSValue → Option String
  | .null => none
  | .undefined => none
  | .bool _ => some "Boolean"
  | .num _ => some "Number"
  | .str _ => some "String"
  | .arr _ => some "Array"
  | .obj _ => some "Object"
  | .blob _ _ => some "Blob"

/-- Property read `v[k]`: absent properties (and reads on non-objects) give
`undefined`. -/
def getField (v : JSValue) (k : String) : JSValue :=
  match v with
  | .obj fields => ((fields.find? (fun p => p.1 == k)).map (fun p => p.2)).getD .undefined
  | _ => .undefined

/-- `v.hasOwnProperty(k)` on a modelled object. -/
def hasField (v : JSValue) (k : String) : Bool :=
  match v with
  | .obj fields => fields.any (fun p => p.1 == k)
  | _ => false

/-- JavaScript `a || b`. -/
def jsOrElse (a b : JSValue) : JSValue :=
  if truthy a then a else b

/-- Property write `v[k] = x` on an object (overwrite in place or append);
on any non-object the assignment is a silent no-op (non-strict mode). -/
def setField (v : JSValue) (k : String) (x : JSValue) : JSValue :=
  match v with
  | .obj fields =>
      if fields.any (fun p => p.1 == k) then
        .obj (fields.map (fun p => if p.1 == k then (p.1, x) else p))
      else
        .obj (fields ++ [(k, x)])
  | other => other

/-- `is-http-response.helper.ts`: duck-typed check that `data` is truthy, of
`typeof 'object'`, and has the five response fields.  (The `instanceof
HttpResponse` disjunct of the source is subsumed: reconstructed responses in
this model are objects carrying exactly those five fields.) -/
def isHttpResponse (data : JSValue) : Bool :=
  truthy data && typeofJS data == "object" &&
    hasField data "status" && hasField data "statusText" &&
    hasField data "headers" && hasField data "url" && hasField data "body"

/-- The `value` field of a stored record, abstracting the two string encodings
the service writes.  `jsonText v` stands for the string `JSON.stringify(v)`
(the stringify/parse pair is a bijection on the JSON-representable values, so
the string is modelled by the value it denotes); `dataUrlText mime bytes`
stands for the base64 data-URL string produced by `FileReader.readAsDataURL`
from a blob with that MIME type and content. -/
inductive StoredValue where
  | jsonText (v : JSValue)
  | dataUrlText (mime : String) (bytes : List Nat)
deriving Repr

/-- Concrete rendering of the data-URL string (used where the code hands the
string itself back to the caller).  The base64 payload is modelled by an
injective byte-to-character stand-in; its exact alphabet is a platform detail
no theorem depends on. -/
def dataUrlString (mime : String) (bytes : List Nat) : String :=
  "data:" ++ mime ++ ";base64," ++ String.mk (bytes.map (fun n => Char.ofNat (n % 256)))

/-- `JSON.parse` applied to the stored `value` string. -/
def StoredValue.parseJson : StoredValue → JSValue
  | .jsonText v => v
  | .dataUrlText mime bytes => .str (dataUrlString mime bytes)

/-- The record shape `CacheService.saveItem` writes:
`{ value, expires, type, groupKey }` (cache-storage-item.interface.ts without
the attached `key`). -/
structure CacheEnvelope where
  value : StoredValue
  expires : Int
  type : String
  groupKey : String
deriving Repr

/-- A raw record of the shared underlying Ionic `Storage`: either a cache
envelope written by this library or unrelated application data. -/
inductive RawVal where
  | env (e : CacheEnvelope)
  | other (j : JSValue)
deriving Repr

/-- JS truthiness of `item.expires` on a raw record (`0` is falsy). -/
def RawVal.expiresTruthy : RawVal → Bool
  | .env e => e.expires != 0
  | .other j => truthy (getField j "expires")

/-- JS truthiness of `item.type` on a raw record (`''` is falsy). -/
def RawVal.typeTruthy : RawVal → Bool
  | .env e => e.type != ""
  | .other j => truthy (getField j "type")

/-- Numeric reading of `item.expires` where the code compares it with a
number; `none` models `undefined`/non-numeric fields, whose JS `<` comparison
with a number is always false. -/
def RawVal.expiresNum : RawVal → Option Int
  | .env e => some e.expires
  | .other j => match getField j "expires" with
    | .num n => some n
    | _ => none

/-- `item.groupKey` where the code compares it with a string. -/
def RawVal.groupKeyStr : RawVal → Option String
  | .env e => some e.groupKey
  | .other j => match getField j "groupKey" with
    | .str s => some s
    | _ => none

/-- JS `key.startsWith(p)`, modelled on the character lists. -/
def jsStartsWith (key p : String) : Bool :=
  p.toList.isPrefixOf key.toList

/-- JS `key.substr(n)`, modelled on the character lists. -/
def jsSubstrFrom (key : String) (n : Nat) : String :=
  String.mk (key.toList.drop n)

/-- `CacheStorageService.buildKey`: prepend the configured key prefix unless
the key already starts with it. -/
def buildKey (pfx key : String) : String :=
  if jsStartsWith key pfx then key else pfx ++ key

/-- `CacheStorageService.debuildKey`: strip the configured key prefix when the
key starts with it. -/
def debuildKey (pfx key : String) : String :=
  if jsStartsWith key pfx then jsSubstrFrom key pfx.length else key

/-- The underlying Ionic `Storage` contents: raw (prefixed) keys to records. -/
abbrev Store := List (String × RawVal)

/-- `Storage.get` on the raw store. -/
def lookupRaw (store : Store) (rawKey : String) : Option RawVal :=
  (store.find? (fun p => p.1 == rawKey)).map (fun p => p.2)

/-- `Storage.set` on the raw store (overwrite semantics of a key-value map). -/
def setRaw (store : Store) (rawKey : String) (v : RawVal) : Store :=
  store.filter (fun p => p.1 != rawKey) ++ [(rawKey, v)]

/-- `Storage.remove` on the raw store. -/
def removeRaw (store : Store) (rawKey : String) : Store :=
  store.filter (fun p => p.1 != rawKey)

/-- `CacheStorageService.set`: store under the built (prefixed) key. -/
def storageSet (pfx : String) (store : Store) (key : String) (v : RawVal) : Store :=
  setRaw store (buildKey pfx key) v

/-- `CacheStorageService.get`: read under the built key (the caller-visible
record keeps the caller's own, un-built key). -/
def storageGet (pfx : String) (store : Store) (key : String) : Option RawVal :=
  lookupRaw store (buildKey pfx key)

/-- `CacheStorageService.remove`: remove under the built key. -/
def storageRemove (pfx : String) (store : Store) (key : String) : Store :=
  removeRaw store (buildKey pfx key)

/-- `CacheStorageService.exists`: truthiness of the raw read. -/
def storageExists (pfx : String) (store : Store) (key : String) : Bool :=
  (storageGet pfx store key).isSome

/-- `CacheStorageService.isCachedItem`:
`item && item.expires && item.type && key.startsWith(this.config.keyPrefix)`
(truthiness checks, not mere field presence). -/
def isCachedItem (pfx rawKey : String) (item : RawVal) : Bool :=
  item.expiresTruthy && item.typeTruthy && jsStartsWith rawKey pfx

/-- `CacheStorageService.all`: enumerate the raw store, keep the records
passing `isCachedItem`, and attach the de-prefixed key to each. -/
def storageAll (pfx : String) (store : Store) : List (String × RawVal) :=
  (store.filter (fun p => isCachedItem pfx p.1 p.2)).map
    (fun p => (debuildKey pfx p.1, p.2))

/-- The distinct failure reasons of `error-messages.constant.ts`, plus the
`TypeError` thrown by `data.constructor` on `null`/`undefined` data and the
rejection of `JSON.parse`/`fetch` on malformed stored values. -/
inductive CacheErr where
  | notEnabled
  | notFound (key : String)
  | expired (key : String)
  | browserOffline
  | typeErr
  | decodeFailed
deriving DecidableEq, Repr

/-- Outcome of a promise-returning operation. -/
inductive CResult (α : Type) where
  | ok (value : α)
  | err (e : CacheErr)
deriving Repr

/-- Whether the promise resolved. -/
def CResult.isOk {α : Type} : CResult α → Bool
  | .ok _ => true
  | .err _ => false

/-- The tag comparison of `is-js-or-response-type.helper.ts`: a JS `typeof`
name or `'response'`. -/
def isJsOrResponseTag (t : String) : Bool :=
  t == "undefined" || t == "object" || t == "boolean" || t == "number" ||
  t == "bigint" || t == "string" || t == "symbol" || t == "function" ||
  t == "response"

/-- `is-js-or-response-type.helper.ts`: the stored `type` tag is a JS
`typeof` name or `'response'`. -/
def isJsOrResponseType (data : CacheEnvelope) : Bool :=
  isJsOrResponseTag data.type

/-- The response-shaped object rebuilt by `decodeRawData`, with the field
order of the source's object literal.  `new HttpResponse(response)` is
modelled by the object of the five fields it is given. -/
def mkHttpResponse (body status headers statusText url : JSValue) : JSValue :=
  .obj [("body", body), ("status", status), ("headers", headers),
        ("statusText", statusText), ("url", url)]

/-- `decode-raw-data.helper.ts`: `JSON.parse` the stored value; for a JS or
`'response'` type tag rebuild a response when the parsed value duck-types as
one (taking the body from `_body || body`), else return the parsed value;
for any other tag decode the stored data-URL string back into a blob (`fetch`
of the data URL, modelled from the spec: it reconstructs the MIME type and
bytes; `none` models its rejection on a non-data-URL value, unreachable for
records written by `saveItem`). -/
def decodeRawData (data : CacheEnvelope) : Option JSValue :=
  let dataJson := data.value.parseJson
  if isJsOrResponseType data then
    if isHttpResponse dataJson then
      some (mkHttpResponse
        (jsOrElse (getField dataJson "_body") (getField dataJson "body"))
        (getField dataJson "status")
        (getField dataJson "headers")
        (getField dataJson "statusText")
        (getField dataJson "url"))
    else
      some dataJson
  else
    match data.value with
    | .dataUrlText mime bytes => some (.blob mime bytes)
    | .jsonText _ => none

/-- `CacheService` instance state, together with the environment read at call
time: `online` is `navigator.onLine` and calls take the current epoch-ms
`now` explicitly. -/
structure CacheState where
  ttl : Int
  cacheEnabled : Bool
  invalidateOffline : Bool
  keyPfx : String
  store : Store
  online : Bool
deriving Repr

/-- `enableCache`. -/
def enableCache (st : CacheState) (enable : Bool) : CacheState :=
  { st with cacheEnabled := enable }

/-- `setOfflineInvalidate`: stores the negation of its argument. -/
def setOfflineInvalidate (st : CacheState) (offlineInvalidate : Bool) : CacheState :=
  { st with invalidateOffline := !offlineInvalidate }

/-- `setDefaultTTL`. -/
def setDefaultTTL (st : CacheState) (ttl : Int) : CacheState :=
  { st with ttl := ttl }

/-- `saveBlobItem`: `expires = now + ttl*1000`, `type` is the blob's own MIME
type, the value is the JSON-stringified base64 data URL of the blob
(`convert-blob-to-base64.helper.ts`, whose `FileReader` failure mode is
environmental and not modelled). -/
def saveBlobItem (st : CacheState) (key : String) (mime : String)
    (bytes : List Nat) (groupKey : String) (ttl : Int) (now : Int) :
    CResult CacheState :=
  if !st.cacheEnabled then .err .notEnabled
  else
    let expires := now + ttl * 1000
    let item : RawVal := .env ⟨.dataUrlText mime bytes, expires, mime, groupKey⟩
    .ok { st with store := storageSet st.keyPfx st.store key item }

/-- `saveItem`: fail when the cache is disabled; dereference
`data.constructor.name` (a `TypeError` on `null`/`undefined`); take the blob
path when the constructor is named `Blob`; otherwise write
`{ value: JSON.stringify(data), expires: now + ttl*1000, type, groupKey }`
with `type = isHttpResponse(data) ? 'response' : typeof data`. -/
def saveItem (st : CacheState) (key : String) (data : JSValue)
    (groupKey : String) (ttl : Int) (now : Int) : CResult CacheState :=
  if !st.cacheEnabled then .err .notEnabled
  else
    match constructorName data with
    | none => .err .typeErr
    | some cn =>
      if cn == "Blob" then
        match data with
        | .blob mime bytes => saveBlobItem st key mime bytes groupKey ttl now
        | _ => .err .typeErr
      else
        let expires := now + ttl * 1000
        let type := if isHttpResponse data then "response" else typeofJS data
        let item : RawVal := .env ⟨.jsonText data, expires, type, groupKey⟩
        .ok { st with store := storageSet st.keyPfx st.store key item }

/-- `removeItem`. -/
def removeItem (st : CacheState) (key : String) : CResult CacheState :=
  if !st.cacheEnabled then .err .notEnabled
  else .ok { st with store := storageRemove st.keyPfx st.store key }

/-- `getRawItem`: read through the storage adapter; a missing (falsy) record
becomes the `notFound` error. -/
def getRawItem (st : CacheState) (key : String) : CResult (String × RawVal) :=
  if !st.cacheEnabled then .err .notEnabled
  else
    match storageGet st.keyPfx st.store key with
    | some v => .ok (key, v)
    | none => .err (.notFound key)

/-- `getRawItems`: returns `cacheStorage.all()`; this method performs no
`cacheEnabled` check. -/
def getRawItems (st : CacheState) : CResult (List (String × RawVal)) :=
  .ok (storageAll st.keyPfx st.store)

/-- `itemExists`. -/
def itemExists (st : CacheState) (key : String) : CResult Bool :=
  if !st.cacheEnabled then .err .notEnabled
  else .ok (storageExists st.keyPfx st.store key)

/-- `getItem`: fetch the raw item; throw `expired` when
`data.expires < Date.now() && (invalidateOffline || isOnline())`; otherwise
decode.  (`decodeFailed` models the rejection of `decodeRawData` on a record
not written by `saveItem`.) -/
def getItem (st : CacheState) (key : String) (now : Int) : CResult JSValue :=
  if !st.cacheEnabled then .err .notEnabled
  else
    match getRawItem st key with
    | .err e => .err e
    | .ok (_, v) =>
      let isExpired := match v.expiresNum with
        | some n => n < now
        | none => false
      if isExpired && (st.invalidateOffline || st.online) then
        .err (.expired key)
      else
        match v with
        | .env e =>
          match decodeRawData e with
          | some x => .ok x
          | none => .err .decodeFailed
        | .other _ => .err .decodeFailed

/-- `getOrSetItem`: return `getItem` on success; on any failure invoke the
factory, persist its result with `saveItem`, and return it.  The factory is
modelled by the value it resolves with; the final `Bool` records whether it
was invoked. -/
def getOrSetItem (st : CacheState) (key : String) (factoryVal : JSValue)
    (groupKey : String) (ttl : Int) (now : Int) :
    CResult JSValue × CacheState × Bool :=
  match getItem st key now with
  | .ok v => (.ok v, st, false)
  | .err _ =>
    match saveItem st key factoryVal groupKey ttl now with
    | .ok st' => (.ok factoryVal, st', true)
    | .err e => (.err e, st, true)

/-- JS `pattern.split('*')`, on the character list. -/
def splitStar : List Char → List (List Char)
  | [] => [[]]
  | c :: rest =>
    if c = '*' then [] :: splitStar rest
    else
      match splitStar rest with
      | s :: ss => (c :: s) :: ss
      | [] => [[c]]

/-- The ECMAScript line terminators, which `.` — and therefore the `.*` the
pattern's `*` compiles to — does not match in a regular expression carrying
no `s` flag (the compiled expression has none). -/
def isLineTerminator (c : Char) : Bool :=
  c = '\n' || c = '\r' || c = Char.ofNat 0x2028 || c = Char.ofNat 0x2029

/-- One regular-expression character of a `.*`-joined segment: `.` matches
any character other than a line terminator, every other character of the
segments only itself.  (This is the JS regex semantics for segments free of
the remaining metacharacters `( ) [ ] { \x7d ^ $ + ? \ |`; theorems about
`removeItems` carry that restriction.) -/
def charMatches (p c : Char) : Bool :=
  if p = '.' then !isLineTerminator c else p = c

/-- Match a segment literally (`.`-aware) against the front of `s`, returning
the remainder. -/
def dropSeg : List Char → List Char → Option (List Char)
  | [], s => some s
  | _ :: _, [] => none
  | p :: ps, c :: cs => if charMatches p c then dropSeg ps cs else none

/-- Match the remaining segments, each preceded by `.*` — which, without the
`s` flag, only spans characters that are not line terminators — end-anchored. -/
def globTail : List (List Char) → List Char → Bool
  | [], s => s.isEmpty
  | seg :: rest, s =>
    (List.range (s.length + 1)).any (fun i =>
      (s.take i).all (fun c => !isLineTerminator c) &&
        match dropSeg seg (s.drop i) with
        | some s2 => globTail rest s2
        | none => false)

/-- `new RegExp('^' + pattern.split('*').join('.*') + '$').test(key)`:
anchored match with `*` compiled to `.*` and the rest of the pattern passed
through verbatim.  The RegExp carries no flags, so `.` and the compiled `.*`
do not cross line terminators and `^`/`$` anchor the whole string. -/
def regexTest (pattern key : String) : Bool :=
  match splitStar pattern.toList with
  | [] => key.toList.isEmpty
  | seg :: rest =>
    match dropSeg seg key.toList with
    | some s2 => globTail rest s2
    | none => false

/-- The regex metacharacters other than `*` and `.`; the matcher above is the
faithful embedding only for patterns avoiding them. -/
def plainPatternChar (c : Char) : Bool :=
  !(c = '(' || c = ')' || c = '[' || c = ']' || c = '{' || c = '}' ||
    c = '^' || c = '$' || c = '+' || c = '?' || c = '\\' || c = '|')

/-- Remove a batch of caller-level keys through `removeItem`
(`Promise.all(keys.map(key => this.removeItem(key)))`). -/
def removeKeys (pfx : String) (store : Store) (keys : List String) : Store :=
  keys.foldl (fun acc k => removeRaw acc (buildKey pfx k)) store

/-- `removeItems(pattern)`: compile the pattern, enumerate the namespace, and
remove every truthy (nonempty) key the compiled expression matches. -/
def removeItems (st : CacheState) (pattern : String) : CResult CacheState :=
  if !st.cacheEnabled then .err .notEnabled
  else
    let keys := ((storageAll st.keyPfx st.store).map (fun p => p.1)).filter
      (fun k => k != "" && regexTest pattern k)
    .ok { st with store := removeKeys st.keyPfx st.store keys }

/-- `resetDatabase`: remove every enumerated entry individually. -/
def resetDatabase (st : CacheState) : CacheState :=
  let keys := (storageAll st.keyPfx st.store).map (fun p => p.1)
  { st with store := removeKeys st.keyPfx st.store keys }

/-- `clearAll`. -/
def clearAll (st : CacheState) : CResult CacheState :=
  if !st.cacheEnabled then .err .notEnabled
  else .ok (resetDatabase st)

/-- `clearExpired(ignoreOnlineStatus)`: offline without the override is the
`browserOffline` error; otherwise remove every enumerated entry with
`item.expires < datetime`. -/
def clearExpired (st : CacheState) (ignoreOnlineStatus : Bool) (now : Int) :
    CResult CacheState :=
  if !st.cacheEnabled then .err .notEnabled
  else if !st.online && !ignoreOnlineStatus then .err .browserOffline
  else
    let keys := ((storageAll st.keyPfx st.store).filter (fun p =>
      match p.2.expiresNum with
      | some n => n < now
      | none => false)).map (fun p => p.1)
    .ok { st with store := removeKeys st.keyPfx st.store keys }

/-- `clearGroup(groupKey)`: remove every enumerated entry whose `groupKey`
matches exactly. -/
def clearGroup (st : CacheState) (groupKey : String) : CResult CacheState :=
  if !st.cacheEnabled then .err .notEnabled
  else
    let keys := ((storageAll st.keyPfx st.store).filter (fun p =>
      match p.2.groupKeyStr with
      | some g => g == groupKey
      | none => false)).map (fun p => p.1)
    .ok { st with store := removeKeys st.keyPfx st.store keys }

/-- How a caller-supplied source observable terminates. -/
inductive SrcEnd where
  | done
  | fail (msg : String)
deriving DecidableEq, Repr

/-- A caller-supplied source observable, by the deterministic behavior of one
execution of its underlying work: the values it emits in order, then its
terminal event. -/
structure Source where
  emits : List JSValue
  ending : SrcEnd
deriving Repr

/-- An event observed by the consumer of a returned stream. -/
inductive Ev where
  | next (v : JSValue)
  | errEv (msg : String)
  | done
deriving Repr

/-- The event trace a consumer of the bare source sees. -/
def sourceEvents (src : Source) : List Ev :=
  src.emits.map Ev.next ++
    [match src.ending with
     | .done => Ev.done
     | .fail m => Ev.errEv m]

/-- Result of a stream operation: the consumer-visible event trace, the
number of executions of the source's underlying work, and the final store.
The `share()` wrapper on the source is external rxjs code, modelled from the
spec's multicast contract: all subscriptions of one call attach to a single
execution of the underlying work. -/
structure StreamOutcome where
  events : List Ev
  sourceRuns : Nat
  finalStore : Store
deriving Repr

/-- `loadFromObservable`: pass the source through untouched when the cache is
disabled; otherwise emit the `getItem` value and complete, and only on its
failure subscribe the shared source, saving every emission fire-and-forget
(via the inner subscriber) while the consumer receives the same execution's
events. -/
def loadFromObservable (st : CacheState) (key : String) (src : Source)
    (groupKey : String) (ttl : Int) (now : Int) : StreamOutcome :=
  if !st.cacheEnabled then ⟨sourceEvents src, 1, st.store⟩
  else
    match getItem st key now with
    | .ok v => ⟨[.next v, .done], 0, st.store⟩
    | .err _ =>
      let finalStore := src.emits.foldl (fun acc res =>
        match saveItem { st with store := acc } key res groupKey ttl now with
        | .ok st' => st'.store
        | .err _ => acc) st.store
      ⟨sourceEvents src, 1, finalStore⟩

/-- `data[metaKey] = data[metaKey] || \x7b\x7d; data[metaKey].fromCache = true`
applied when a `metaKey` is supplied (a no-op on non-object data in
non-strict mode). -/
def applyMeta (metaKey : Option String) (v : JSValue) : JSValue :=
  match metaKey with
  | none => v
  | some mk =>
    match v with
    | .obj fields =>
      let cur := jsOrElse (getField (.obj fields) mk) (.obj [])
      setField (.obj fields) mk (setField cur "fromCache" (.bool true))
    | other => other

/-- The `subscribeOrigin` closure of `loadFromDelayedObservable`: on the
source's first emission save it (fire-and-forget), forward it and complete
the subject (later emissions find the subject closed); an error before any
emission errors the subject; completion without emission completes it.  A
synchronous `saveItem` throw aborts the handler before the forward. -/
def subscribeOrigin (st : CacheState) (key : String) (src : Source)
    (groupKey : String) (ttl : Int) (now : Int) : List Ev × Store :=
  match src.emits with
  | [] =>
    ([match src.ending with
      | .done => Ev.done
      | .fail m => Ev.errEv m], st.store)
  | v :: _ =>
    match saveItem st key v groupKey ttl now with
    | .ok st' => ([.next v, .done], st'.store)
    | .err _ => ([], st.store)

/-- `loadFromDelayedObservable`: pass the source through when disabled.
Otherwise try `getItem`: on success emit the (meta-tagged) value, then either
subscribe the origin (`delayType === 'all'`) or complete at once; on failure
try `getRawItem` and on success emit its decoded value and subscribe the
origin, and when even that fails just subscribe the origin. -/
def loadFromDelayedObservable (st : CacheState) (key : String) (src : Source)
    (groupKey : String) (ttl : Int) (delayType : String)
    (metaKey : Option String) (now : Int) : StreamOutcome :=
  if !st.cacheEnabled then ⟨sourceEvents src, 1, st.store⟩
  else
    match getItem st key now with
    | .ok data =>
      let d := applyMeta metaKey data
      if delayType == "all" then
        let (evs, store') := subscribeOrigin st key src groupKey ttl now
        ⟨Ev.next d :: evs, 1, store'⟩
      else
        ⟨[.next d, .done], 0, st.store⟩
    | .err _ =>
      match getRawItem st key with
      | .ok (_, v) =>
        let decoded := match v with
          | .env e => decodeRawData e
          | .other _ => none
        match decoded with
        | some res =>
          let r := applyMeta metaKey res
          let (evs, store') := subscribeOrigin st key src groupKey ttl now
          ⟨Ev.next r :: evs, 1, store'⟩
        | none =>
          let (evs, store') := subscribeOrigin st key src groupKey ttl now
          ⟨evs, 1, store'⟩
      | .err _ =>
        let (evs, store') := subscribeOrigin st key src groupKey ttl now
        ⟨evs, 1, store'⟩

mutual

/-- JSON-representability of a modelled value: no `undefined` and no nested
blob anywhere (on these values `JSON.parse ∘ JSON.stringify` is the identity,
which is what the `jsonText` modelling of stored strings assumes). -/
def jsonSafe : JSValue → Bool
  | .null => true
  | .undefined => false
  | .bool _ => true
  | .num _ => true
  | .str _ => true
  | .arr xs => jsonSafeList xs
  | .obj fs => jsonSafeFields fs
  | .blob _ _ => false

def jsonSafeList : List JSValue → Bool
  | [] => true
  | x :: xs => jsonSafe x && jsonSafeList xs

def jsonSafeFields : List (String × JSValue) → Bool
  | [] => true
  | (_, x) :: fs => jsonSafe x && jsonSafeFields fs

end

/-- Statement vocabulary: the records `clearExpired` leaves in place — those
not both visible to `all()` and bearing `expires < now`. -/
def expiredKeep (pfx : String) (now : Int) (p : String × RawVal) : Bool :=
  !(isCachedItem pfx p.1 p.2 &&
    (match p.2.expiresNum with
     | some n => n < now
     | none => false))

/-- Statement vocabulary: the records `removeItems` leaves in place — those
not both visible to `all()` and carrying a nonempty de-prefixed key matched
by the compiled pattern. -/
def removeItemsKeep (pfx pattern : String) (p : String × RawVal) : Bool :=
  !(isCachedItem pfx p.1 p.2 &&
    (debuildKey pfx p.1 != "" && regexTest pattern (debuildKey pfx p.1)))

/-! ## Basic lemmas about the key codec -/

theorem stringDataEq {a b : String} (h : a.data = b.data) : a = b := by
  cases a
  cases b
  exact congrArg String.mk h

theorem stringLengthEq (s : String) : s.length = s.data.length := by
  cases s
  rfl

theorem jsStartsWith_append (pfx k : String) : jsStartsWith (pfx ++ k) pfx = true := by
  simp only [jsStartsWith, String.toList, String.data_append,
    List.isPrefixOf_iff_prefix]
  exact List.prefix_append _ _

theorem jsSubstrFrom_append (pfx k : String) : jsSubstrFrom (pfx ++ k) pfx.length = k := by
  apply stringDataEq
  simp only [jsSubstrFrom, String.toList, String.data_append, stringLengthEq]
  exact List.drop_left _ _

theorem startsWith_decomp {pfx raw : String} (h : jsStartsWith raw pfx = true) :
    pfx ++ jsSubstrFrom raw pfx.length = raw := by
  apply stringDataEq
  simp only [jsStartsWith, String.toList, List.isPrefixOf_iff_prefix] at h
  obtain ⟨t, ht⟩ := h
  have hsub : (jsSubstrFrom raw pfx.length).data = raw.data.drop pfx.length := rfl
  rw [String.data_append, hsub, ← ht, stringLengthEq, List.drop_left]

/-- C7 counterexample: with key prefix `"p:"` and key `"p:a"` (which already
starts with the prefix), `buildKey` leaves the key unchanged but `debuildKey`
strips it to `"a"`, so `debuildKey (buildKey k) ≠ k`: `debuildKey` is not the
inverse of `buildKey` on such keys (and iterating `debuildKey` on
`"p:p:a"` strips twice, refuting its idempotence as well). -/
theorem c7_debuildKey_not_inverse :
    debuildKey "p:" (buildKey "p:" "p:a") = "a" ∧ ("a" : String) ≠ "p:a" ∧
    debuildKey "p:" (debuildKey "p:" "p:p:a") = "a" ∧
    debuildKey "p:" "p:p:a" = "p:a" := by
  refine ⟨by decide, by decide, by decide, by decide⟩

/-- C7 (amended): `buildKey` is idempotent for every key; `debuildKey` is a
left inverse of `buildKey` exactly on keys that do not already start with the
prefix; and `debuildKey` is idempotent only when the once-stripped key does
not itself start with the prefix again. -/
theorem c7_buildKey_props (pfx k : String) :
    buildKey pfx (buildKey pfx k) = buildKey pfx k ∧
    (jsStartsWith k pfx = false → debuildKey pfx (buildKey pfx k) = k) ∧
    (jsStartsWith (debuildKey pfx k) pfx = false →
      debuildKey pfx (debuildKey pfx k) = debuildKey pfx k) := by
  refine ⟨?_, ?_, ?_⟩
  · by_cases h : jsStartsWith k pfx = true
    · simp [buildKey, h]
    · simp only [Bool.not_eq_true] at h
      simp [buildKey, h, jsStartsWith_append]
  · intro h
    simp [buildKey, debuildKey, h, jsStartsWith_append, jsSubstrFrom_append]
  · intro h
    generalize hd : debuildKey pfx k = d at h ⊢
    simp [debuildKey, h]

theorem lookupRaw_setRaw_self (store : Store) (k : String) (v : RawVal) :
    lookupRaw (setRaw store k v) k = some v := by
  have hnone : (store.filter (fun p => p.1 != k)).find? (fun p => p.1 == k) = none := by
    rw [List.find?_eq_none]
    intro x hx
    have hne := (List.mem_filter.mp hx).2
    simpa using hne
  simp [lookupRaw, setRaw, List.find?_append, hnone]

/-- C2 counterexample: a blob whose MIME type is the string `"object"` (a
legal `Blob` type).  `saveItem` stores its data URL under the type tag
`"object"`, which `decodeRawData` classifies as a JS type tag, so `getItem`
returns the data-URL *string* rather than reconstructing the blob: decode is
not the inverse of encode for this stored type tag. -/
theorem c2_blob_mime_counterexample :
    getItem (⟨3600, true, false, "", [], true⟩ : CacheState) "k" 0 = .err (.notFound "k") ∧
    (match saveItem ⟨3600, true, false, "", [], true⟩ "k" (.blob "object" [7]) "none" 10 0 with
     | .ok st' => getItem st' "k" 0
     | .err e => .err e) = .ok (.str (dataUrlString "object" [7])) ∧
    JSValue.str (dataUrlString "object" [7]) ≠ .blob "object" [7] := by
  refine ⟨rfl, rfl, fun h => JSValue.noConfusion h⟩

/-- C2 (amended): with the cache enabled and a positive TTL, `saveItem`
followed immediately by `getItem` returns the saved value exactly, for every
string, every number, every JSON-safe array, every JSON-safe plain object
that does not duck-type as an HTTP response, every response-shaped object in
the canonical five-field form `mkHttpResponse body status headers statusText
url` with JSON-safe components, and every blob whose MIME type is not one of
the nine JS/`response` type tags (for a colliding MIME type such as
`"object"` the decode returns the data-URL string instead — see the
counterexample). -/
theorem c2_roundTrip (st : CacheState) (key groupKey : String) (ttl now : Int)
    (v : JSValue) (st' : CacheState)
    (hen : st.cacheEnabled = true) (httl : 0 < ttl)
    (hsave : saveItem st key v groupKey ttl now = .ok st')
    (hv : (∃ s, v = .str s) ∨ (∃ n, v = .num n) ∨
          (∃ xs, v = .arr xs ∧ jsonSafe (.arr xs) = true) ∨
          (∃ fs, v = .obj fs ∧ jsonSafe (.obj fs) = true ∧
            isHttpResponse (.obj fs) = false) ∨
          (∃ b s h sx u, v = mkHttpResponse b s h sx u ∧
            jsonSafe (mkHttpResponse b s h sx u) = true) ∨
          (∃ mime bytes, v = .blob mime bytes ∧ isJsOrResponseTag mime = false)) :
    getItem st' key now = .ok v := by
  have hexp : ¬(now + ttl * 1000 < now) := by omega
  rcases hv with ⟨s, rfl⟩ | ⟨n, rfl⟩ | ⟨xs, rfl, hsafe⟩ |
    ⟨fs, rfl, hsafe, hresp⟩ | ⟨b, s, h, sx, u, rfl, hsafe⟩ | ⟨mime, bytes, rfl, htag⟩
  · simp [saveItem, hen, constructorName, isHttpResponse, typeofJS] at hsave
    subst hsave
    simp [getItem, getRawItem, hen, storageGet, storageSet, lookupRaw_setRaw_self,
      RawVal.expiresNum, hexp, decodeRawData, isJsOrResponseType,
      isJsOrResponseTag, StoredValue.parseJson, isHttpResponse, typeofJS]
  · simp [saveItem, hen, constructorName, isHttpResponse, typeofJS] at hsave
    subst hsave
    simp [getItem, getRawItem, hen, storageGet, storageSet, lookupRaw_setRaw_self,
      RawVal.expiresNum, hexp, decodeRawData, isJsOrResponseType,
      isJsOrResponseTag, StoredValue.parseJson, isHttpResponse, typeofJS]
  · simp [saveItem, hen, constructorName, isHttpResponse, typeofJS,
      hasField, truthy] at hsave
    subst hsave
    simp [getItem, getRawItem, hen, storageGet, storageSet, lookupRaw_setRaw_self,
      RawVal.expiresNum, hexp, decodeRawData, isJsOrResponseType,
      isJsOrResponseTag, StoredValue.parseJson, isHttpResponse, typeofJS,
      hasField, truthy]
  · simp [saveItem, hen, constructorName, hresp, typeofJS] at hsave
    subst hsave
    simp [getItem, getRawItem, hen, storageGet, storageSet, lookupRaw_setRaw_self,
      RawVal.expiresNum, hexp, decodeRawData, isJsOrResponseType,
      isJsOrResponseTag, StoredValue.parseJson, typeofJS, hresp]
  · have hr : isHttpResponse (mkHttpResponse b s h sx u) = true := by
      simp [isHttpResponse, mkHttpResponse, truthy, typeofJS, hasField]
    simp [saveItem, hen, constructorName, mkHttpResponse] at hr hsave
    subst hsave
    simp [getItem, getRawItem, hen, storageGet, storageSet, lookupRaw_setRaw_self,
      RawVal.expiresNum, hexp, decodeRawData, isJsOrResponseType,
      isJsOrResponseTag, StoredValue.parseJson, hr, mkHttpResponse,
      getField, jsOrElse, truthy]
  · simp [saveItem, hen, constructorName, saveBlobItem] at hsave
    subst hsave
    simp [getItem, getRawItem, hen, storageGet, storageSet, lookupRaw_setRaw_self,
      RawVal.expiresNum, hexp, decodeRawData, isJsOrResponseType, htag,
      StoredValue.parseJson]

/-- Witness for the amended C2: a canonical response-shaped object round
trips, and so does a PNG blob. -/
theorem c2_roundTrip_witness :
    (match saveItem ⟨3600, true, false, "", [], true⟩ "k"
        (mkHttpResponse (.str "payload") (.num 200) (.obj []) (.str "OK") (.str "u"))
        "none" 10 0 with
     | .ok st' => getItem st' "k" 0
     | .err e => .err e) =
      .ok (mkHttpResponse (.str "payload") (.num 200) (.obj []) (.str "OK") (.str "u")) ∧
    (match saveItem ⟨3600, true, false, "", [], true⟩ "k"
        (.blob "image/png" [3, 5]) "none" 10 0 with
     | .ok st' => getItem st' "k" 0
     | .err e => .err e) = .ok (.blob "image/png" [3, 5]) := by
  constructor
  · have hs := c2_roundTrip ⟨3600, true, false, "", [], true⟩ "k" "none" 10 0
      (mkHttpResponse (.str "payload") (.num 200) (.obj []) (.str "OK") (.str "u"))
      ⟨3600, true, false, "",
        [("k", RawVal.env ⟨.jsonText (mkHttpResponse (.str "payload") (.num 200) (.obj []) (.str "OK") (.str "u")), 10000, "response", "none"⟩)],
        true⟩
      rfl (by decide) rfl
      (Or.inr (Or.inr (Or.inr (Or.inr (Or.inl
        ⟨.str "payload", .num 200, .obj [], .str "OK", .str "u", rfl, rfl⟩)))))
    exact hs
  · have hb := c2_roundTrip ⟨3600, true, false, "", [], true⟩ "k" "none" 10 0
      (.blob "image/png" [3, 5])
      ⟨3600, true, false, "",
        [("k", RawVal.env ⟨.dataUrlText "image/png" [3, 5], 10000, "image/png", "none"⟩)],
        true⟩
      rfl (by decide) rfl
      (Or.inr (Or.inr (Or.inr (Or.inr (Or.inr ⟨"image/png", [3, 5], rfl, rfl⟩)))))
    exact hb

/-- C5: with the cache enabled, a `loadFromObservable` call on a cache miss
(`getItem` fails) runs the shared source's underlying work exactly once, and
the consumer sees exactly the live source's events; on a cache hit the
consumer sees the cached value alone and completes, with the source never
run — exactly one terminal branch, never both.  (`share()` is external rxjs
code, modelled from the spec's multicast contract.) -/
theorem c5_loadFromObservable_single_run (st : CacheState)
    (key groupKey : String) (src : Source) (ttl now : Int)
    (hen : st.cacheEnabled = true) :
    ((getItem st key now).isOk = false →
      (loadFromObservable st key src groupKey ttl now).sourceRuns = 1 ∧
      (loadFromObservable st key src groupKey ttl now).events = sourceEvents src) ∧
    (∀ v, getItem st key now = .ok v →
      (loadFromObservable st key src groupKey ttl now).sourceRuns = 0 ∧
      (loadFromObservable st key src groupKey ttl now).events = [.next v, .done]) := by
  constructor
  · intro hmiss
    cases hget : getItem st key now with
    | ok v =>
      rw [hget] at hmiss
      simp [CResult.isOk] at hmiss
    | err e =>
      simp [loadFromObservable, hen, hget]
  · intro v hget
    simp [loadFromObservable, hen, hget]

/-- Witness for C5: a cache miss (empty store) runs the source once and
forwards its single emission and completion. -/
theorem c5_loadFromObservable_single_run_witness :
    (loadFromObservable ⟨3600, true, false, "", [], true⟩ "k"
        ⟨[.str "live"], .done⟩ "none" 10 0).sourceRuns = 1 ∧
    (loadFromObservable ⟨3600, true, false, "", [], true⟩ "k"
        ⟨[.str "live"], .done⟩ "none" 10 0).events
      = [.next (.str "live"), .done] := by
  obtain ⟨hmiss, -⟩ := c5_loadFromObservable_single_run
    ⟨3600, true, false, "", [], true⟩ "k" "none" ⟨[.str "live"], .done⟩ 10 0 rfl
  obtain ⟨h1, h2⟩ := hmiss rfl
  exact ⟨h1, h2.trans rfl⟩

/-- C3 counterexample: an expired entry (`expires` 5 < `now` 2000) is present
while online with `delayType = "expired"` (not `'all'`): a raw cached value
exists for the key and `delayType ≠ 'all'`, so the claim predicts the source
is never subscribed, yet the call runs the source once (emitting the stale
value and then the fresh one): the code branches on `getItem` failure, not on
the absence of a raw value. -/
theorem c3_expired_subscribes_counterexample :
    getRawItem ⟨3600, true, false, "",
        [("k", RawVal.env ⟨.jsonText (.str "x"), 5, "string", "none"⟩)], true⟩ "k"
      = .ok ("k", RawVal.env ⟨.jsonText (.str "x"), 5, "string", "none"⟩) ∧
    (loadFromDelayedObservable ⟨3600, true, false, "",
        [("k", RawVal.env ⟨.jsonText (.str "x"), 5, "string", "none"⟩)], true⟩
        "k" ⟨[.str "fresh"], .done⟩ "none" 3600 "expired" none 2000).sourceRuns
      = 1 := by
  exact ⟨rfl, rfl⟩

/-- C3 (amended): with the cache enabled (and no `metaKey`), the source's
underlying work runs exactly when `delayType = 'all'` or `getItem` fails
(missing, or expired under the invalidation policy) — not merely when no raw
value exists.  With `delayType = 'all'`, a retrievable cached value and a
source that emits once and completes (whose save succeeds), the stream emits
exactly the cached value, the fresh value, and completion; with
`delayType ≠ 'all'` and a retrievable cached value it emits the cached value
and completes, the source never being run. -/
theorem c3_delayed_observable (st : CacheState) (key groupKey : String)
    (src : Source) (ttl now : Int) (delayType : String)
    (hen : st.cacheEnabled = true) :
    (loadFromDelayedObservable st key src groupKey ttl delayType none now).sourceRuns
      = (if delayType == "all" || !(getItem st key now).isOk then 1 else 0) ∧
    (∀ v w rest st2, getItem st key now = .ok v → delayType = "all" →
      src = ⟨w :: rest, .done⟩ →
      saveItem st key w groupKey ttl now = .ok st2 →
      (loadFromDelayedObservable st key src groupKey ttl delayType none now).events
        = [.next v, .next w, .done]) ∧
    (∀ v, getItem st key now = .ok v → delayType ≠ "all" →
      (loadFromDelayedObservable st key src groupKey ttl delayType none now).events
        = [.next v, .done]) := by
  refine ⟨?_, ?_, ?_⟩
  · cases hget : getItem st key now with
    | ok v =>
      by_cases hd : delayType = "all"
      · subst hd
        simp [loadFromDelayedObservable, hen, hget, applyMeta, CResult.isOk]
      · simp [loadFromDelayedObservable, hen, hget, applyMeta, CResult.isOk, hd]
    | err e =>
      simp only [loadFromDelayedObservable, hen, Bool.not_true, Bool.false_eq_true,
        if_false, hget, CResult.isOk, Bool.not_false, Bool.or_true]
      split
      · split <;> rfl
      · rfl
  · intro v w rest st2 hget hd hsrc hsave
    subst hd
    subst hsrc
    simp [loadFromDelayedObservable, hen, hget, applyMeta, subscribeOrigin, hsave]
  · intro v hget hd
    simp [loadFromDelayedObservable, hen, hget, applyMeta, hd]

/-- Witness for the amended C3: fresh cached entry, `delayType = 'all'`,
one-shot source — two emissions then completion, one source run. -/
theorem c3_delayed_observable_witness :
    (loadFromDelayedObservable ⟨3600, true, false, "",
        [("k", RawVal.env ⟨.jsonText (.str "x"), 1000, "string", "none"⟩)], true⟩
        "k" ⟨[.str "f"], .done⟩ "none" 3600 "all" none 500).events
      = [.next (.str "x"), .next (.str "f"), .done] ∧
    (loadFromDelayedObservable ⟨3600, true, false, "",
        [("k", RawVal.env ⟨.jsonText (.str "x"), 1000, "string", "none"⟩)], true⟩
        "k" ⟨[.str "f"], .done⟩ "none" 3600 "all" none 500).sourceRuns = 1 := by
  obtain ⟨h1, h2, -⟩ := c3_delayed_observable ⟨3600, true, false, "",
      [("k", RawVal.env ⟨.jsonText (.str "x"), 1000, "string", "none"⟩)], true⟩
    "k" "none" ⟨[.str "f"], .done⟩ 3600 500 "all" rfl
  refine ⟨h2 (.str "x") (.str "f") [] ⟨3600, true, false, "",
      [("k", RawVal.env ⟨.jsonText (.str "f"), 3600500, "string", "none"⟩)], true⟩
    rfl rfl rfl rfl, h1.trans rfl⟩

theorem mem_storageAll (pfx : String) (store : Store) (k : String) (v : RawVal) :
    (k, v) ∈ storageAll pfx store ↔
      ∃ raw, (raw, v) ∈ store ∧ isCachedItem pfx raw v = true ∧
        k = debuildKey pfx raw := by
  constructor
  · intro h
    simp only [storageAll, List.mem_map, List.mem_filter] at h
    obtain ⟨p, ⟨hmem, hci⟩, heq⟩ := h
    rcases p with ⟨raw, v'⟩
    injection heq with hk hv
    subst hk
    subst hv
    exact ⟨raw, hmem, hci, rfl⟩
  · rintro ⟨raw, hmem, hci, rfl⟩
    simp only [storageAll, List.mem_map, List.mem_filter]
    exact ⟨(raw, v), ⟨hmem, hci⟩, rfl⟩

theorem nodup_keys_eq {store : Store} (hnodup : (store.map Prod.fst).Nodup)
    {a b : String × RawVal} (ha : a ∈ store) (hb : b ∈ store)
    (hfst : a.1 = b.1) : a = b :=
  List.inj_on_of_nodup_map hnodup ha hb hfst

theorem removeKeys_eq_filter (pfx : String) (keys : List String) (store : Store) :
    removeKeys pfx store keys =
      store.filter (fun p => !(keys.any (fun k => p.1 == buildKey pfx k))) := by
  induction keys generalizing store with
  | nil => simp [removeKeys]
  | cons k ks ih =>
    have h1 : removeKeys pfx store (k :: ks)
        = removeKeys pfx (removeRaw store (buildKey pfx k)) ks := rfl
    rw [h1, ih, removeRaw, List.filter_filter]
    apply List.filter_congr
    intro a _
    simp only [List.any_cons, Bool.not_or, bne]
    rw [Bool.and_comm]

/-- The common shape of the bulk removals: enumerate the namespace, select
the records passing `Q`, and remove each selected record's (de-prefixed) key
through `removeItem`.  When the raw keys are distinct and re-prefixing the
de-prefixed key of every visible record gives back the raw key (no
double-prefix aliasing), this removes exactly the visible records passing
`Q`. -/
theorem removeEnumerated_eq_filter (pfx : String) (store : Store)
    (Q : String × RawVal → Bool)
    (hnodup : (store.map Prod.fst).Nodup)
    (hinv : ∀ p ∈ store, isCachedItem pfx p.1 p.2 = true →
      buildKey pfx (debuildKey pfx p.1) = p.1) :
    removeKeys pfx store (((storageAll pfx store).filter Q).map (fun p => p.1)) =
      store.filter (fun p =>
        !(isCachedItem pfx p.1 p.2 && Q (debuildKey pfx p.1, p.2))) := by
  rw [removeKeys_eq_filter]
  apply List.filter_congr
  intro a ha
  congr 1
  rw [Bool.eq_iff_iff, List.any_eq_true, Bool.and_eq_true]
  constructor
  · rintro ⟨k, hk, heq⟩
    rw [List.mem_map] at hk
    obtain ⟨q, hq, rfl⟩ := hk
    rw [List.mem_filter] at hq
    obtain ⟨hqall, hQ⟩ := hq
    rcases q with ⟨k2, v2⟩
    rw [mem_storageAll] at hqall
    obtain ⟨raw, hraw, hci, rfl⟩ := hqall
    have hbk : buildKey pfx (debuildKey pfx raw) = raw := hinv (raw, v2) hraw hci
    rw [hbk] at heq
    have ha1 : a.1 = raw := by simpa using heq
    have hav : a = (raw, v2) := nodup_keys_eq hnodup ha hraw ha1
    subst hav
    exact ⟨hci, hQ⟩
  · rintro ⟨hci, hQ⟩
    refine ⟨debuildKey pfx a.1, ?_, ?_⟩
    · rw [List.mem_map]
      refine ⟨(debuildKey pfx a.1, a.2), ?_, rfl⟩
      rw [List.mem_filter]
      refine ⟨?_, hQ⟩
      rw [mem_storageAll]
      exact ⟨a.1, by simpa using ha, hci, rfl⟩
    · rw [hinv a ha hci]
      simp

/-- C6 counterexample: an envelope written by the code itself — an empty-MIME
blob stored through `saveItem` — has BOTH the `expires` and `type` fields
(`type = ""`), and its raw key carries this instance's prefix, yet `all()`
omits it: `isCachedItem` tests the truthiness of the fields, not their
presence, and the empty string is falsy. -/
theorem c6_falsy_type_counterexample :
    saveItem ⟨3600, true, false, "p:", [], true⟩ "k" (.blob "" [1]) "none" 10 0
      = .ok ⟨3600, true, false, "p:",
          [("p:k", RawVal.env ⟨.dataUrlText "" [1], 10000, "", "none"⟩)], true⟩ ∧
    storageAll "p:" [("p:k", RawVal.env ⟨.dataUrlText "" [1], 10000, "", "none"⟩)]
      = [] := by
  exact ⟨rfl, rfl⟩

/-- C6 (amended): a record is visible through `all()` exactly when its raw
key starts with this instance's key prefix AND the stored value's `expires`
and `type` fields are truthy (nonzero expires, nonempty type) — truthiness,
not mere field presence — and it is returned with its de-prefixed key
attached.  In particular every record whose raw key does not start with the
prefix (another namespace) is never visible through `all()`, hence never
through the enumeration-based bulk operations built on it. -/
theorem c6_storageAll_characterization (pfx : String) (store : Store)
    (k : String) (v : RawVal) :
    ((k, v) ∈ storageAll pfx store ↔
      ∃ raw, (raw, v) ∈ store ∧ isCachedItem pfx raw v = true ∧
        k = debuildKey pfx raw) ∧
    (∀ p, p ∈ storageAll pfx store →
      ∃ raw, (raw, p.2) ∈ store ∧ jsStartsWith raw pfx = true) := by
  constructor
  · exact mem_storageAll pfx store k v
  · intro p hp
    rcases p with ⟨k2, v2⟩
    rw [mem_storageAll] at hp
    obtain ⟨raw, hmem, hci, rfl⟩ := hp
    refine ⟨raw, hmem, ?_⟩
    simp only [isCachedItem, Bool.and_eq_true] at hci
    exact hci.2

/-- Witness for the amended C6: the envelope at raw key `"p:k"` is visible
under the de-prefixed key `"k"`, and every visible record comes from a
prefix-bearing raw key. -/
theorem c6_storageAll_characterization_witness :
    ("k", RawVal.env ⟨.jsonText (.str "x"), 5, "string", "none"⟩) ∈
      storageAll "p:" [("p:k", RawVal.env ⟨.jsonText (.str "x"), 5, "string", "none"⟩)] ∧
    (∃ raw, (raw, RawVal.env ⟨.jsonText (.str "x"), 5, "string", "none"⟩) ∈
      [("p:k", RawVal.env ⟨.jsonText (.str "x"), 5, "string", "none"⟩)] ∧
      jsStartsWith raw "p:" = true) := by
  have h := c6_storageAll_characterization "p:"
    [("p:k", RawVal.env ⟨.jsonText (.str "x"), 5, "string", "none"⟩)] "k"
    (RawVal.env ⟨.jsonText (.str "x"), 5, "string", "none"⟩)
  have hmem : ("k", RawVal.env ⟨.jsonText (.str "x"), 5, "string", "none"⟩) ∈
      storageAll "p:" [("p:k", RawVal.env ⟨.jsonText (.str "x"), 5, "string", "none"⟩)] := by
    rw [h.1]
    exact ⟨"p:k", by simp, by decide, by decide⟩
  exact ⟨hmem, h.2 _ hmem⟩

/-- C9 counterexample: prefix `"p:"`, a fresh entry at raw key `"p:a"`
(expires 100, now 50) and an expired entry at raw key `"p:p:a"` (expires 1),
both reachable through ordinary `saveItem` calls (keys `"a"` and `"p:a"`).
`clearExpired` enumerates the expired entry under its de-prefixed key
`"p:a"`, and `removeItem("p:a")` re-prefixes to raw `"p:a"` — deleting the
NON-expired entry and leaving the expired one in place, refuting "removes
exactly those entries whose expires < now". -/
theorem c9_alias_counterexample :
    clearExpired ⟨3600, true, false, "p:",
        [("p:a", RawVal.env ⟨.jsonText (.str "fresh"), 100, "string", "none"⟩),
         ("p:p:a", RawVal.env ⟨.jsonText (.str "old"), 1, "string", "none"⟩)], true⟩
      false 50
    = .ok ⟨3600, true, false, "p:",
        [("p:p:a", RawVal.env ⟨.jsonText (.str "old"), 1, "string", "none"⟩)], true⟩ := by
  rfl

/-- C9 (amended): with the cache enabled, `clearExpired` rejects with the
offline error exactly when the device is offline and `ignoreOnlineStatus` is
false (the store untouched, since the check precedes any enumeration);
otherwise — provided raw keys are distinct and no visible record's
de-prefixed key re-prefixes to a different raw key (no double-prefix
aliasing, see the counterexample) — it removes exactly the visible records
with `expires < now`, leaving every other record untouched. -/
theorem c9_clearExpired (st : CacheState) (ignoreOnline : Bool) (now : Int)
    (hen : st.cacheEnabled = true)
    (hnodup : (st.store.map Prod.fst).Nodup)
    (hinv : ∀ p ∈ st.store, isCachedItem st.keyPfx p.1 p.2 = true →
      buildKey st.keyPfx (debuildKey st.keyPfx p.1) = p.1) :
    (st.online = false → ignoreOnline = false →
      clearExpired st ignoreOnline now = .err .browserOffline) ∧
    (st.online = true ∨ ignoreOnline = true →
      clearExpired st ignoreOnline now
        = .ok { st with store := st.store.filter (expiredKeep st.keyPfx now) }) := by
  constructor
  · intro hoff hig
    simp [clearExpired, hen, hoff, hig]
  · intro hon
    have hgate : (!st.online && !ignoreOnline) = false := by
      rcases hon with h | h <;> simp [h]
    simp only [clearExpired, hen, Bool.not_true, Bool.false_eq_true, if_false,
      hgate]
    congr 1
    congr 1
    exact removeEnumerated_eq_filter st.keyPfx st.store _ hnodup hinv

/-- Witness for the amended C9: online device, two distinct non-aliasing
entries; the expired one (expires 1 < now 50) is removed, the fresh one
(expires 100) kept. -/
theorem c9_clearExpired_witness :
    clearExpired ⟨3600, true, false, "p:",
        [("p:a", RawVal.env ⟨.jsonText (.str "fresh"), 100, "string", "none"⟩),
         ("p:b", RawVal.env ⟨.jsonText (.str "old"), 1, "string", "none"⟩)], true⟩
      false 50
    = .ok ⟨3600, true, false, "p:",
        [("p:a", RawVal.env ⟨.jsonText (.str "fresh"), 100, "string", "none"⟩)], true⟩ := by
  obtain ⟨-, h2⟩ := c9_clearExpired ⟨3600, true, false, "p:",
      [("p:a", RawVal.env ⟨.jsonText (.str "fresh"), 100, "string", "none"⟩),
       ("p:b", RawVal.env ⟨.jsonText (.str "old"), 1, "string", "none"⟩)], true⟩
    false 50 rfl (by decide) (by decide)
  exact (h2 (Or.inl rfl)).trans rfl

/-- C8 counterexample: the pattern is compiled to a regular expression
without escaping the other metacharacters, so `.` in a pattern matches any
character rather than only itself: `removeItems("a.c")` removes the key
`"abc"` as well as `"a.c"` (the claim predicts only `"a.c"` is removed). -/
theorem c8_dot_counterexample :
    removeItems ⟨3600, true, false, "",
        [("a.c", RawVal.env ⟨.jsonText (.str "1"), 5, "string", "none"⟩),
         ("abc", RawVal.env ⟨.jsonText (.str "2"), 5, "string", "none"⟩)], true⟩
      "a.c"
    = .ok ⟨3600, true, false, "", [], true⟩ := by
  rfl

/-- C8 (amended): `removeItems(pattern)` fails with the not-enabled error
when the cache is disabled; when enabled — for patterns free of the regex
metacharacters other than `*` and `.`, with distinct raw keys and no
double-prefix aliasing — it removes exactly the visible records whose
de-prefixed key is nonempty and matches the anchored compiled expression, in
which `*` matches any sequence of characters other than line terminators
(the compiled RegExp has no `s` flag), `.` matches any single
non-line-terminator character (not only itself, contrary to the claim — see
the counterexample), and the remaining characters match only themselves. -/
theorem c8_removeItems (st : CacheState) (pattern : String)
    (hnodup : (st.store.map Prod.fst).Nodup)
    (hinv : ∀ p ∈ st.store, isCachedItem st.keyPfx p.1 p.2 = true →
      buildKey st.keyPfx (debuildKey st.keyPfx p.1) = p.1)
    (_hplain : ∀ c ∈ pattern.toList, plainPatternChar c = true) :
    (st.cacheEnabled = false → removeItems st pattern = .err .notEnabled) ∧
    (st.cacheEnabled = true → removeItems st pattern
        = .ok { st with store := st.store.filter (removeItemsKeep st.keyPfx pattern) }) := by
  constructor
  · intro hdis
    simp [removeItems, hdis]
  · intro hen
    simp only [removeItems, hen, Bool.not_true, Bool.false_eq_true, if_false]
    congr 1
    congr 1
    rw [List.filter_map]
    exact removeEnumerated_eq_filter st.keyPfx st.store
      (fun p => p.1 != "" && regexTest pattern p.1) hnodup hinv

/-- Witness for the amended C8: the spec's concrete scenario — after saving
`songs/1`, `songs/2` and `movies/1`, `removeItems("songs/*")` removes only
the first two. -/
theorem c8_removeItems_witness :
    removeItems ⟨3600, true, false, "",
        [("songs/1", RawVal.env ⟨.jsonText (.str "1"), 5, "string", "none"⟩),
         ("songs/2", RawVal.env ⟨.jsonText (.str "2"), 5, "string", "none"⟩),
         ("movies/1", RawVal.env ⟨.jsonText (.str "3"), 5, "string", "none"⟩)], true⟩
      "songs/*"
    = .ok ⟨3600, true, false, "",
        [("movies/1", RawVal.env ⟨.jsonText (.str "3"), 5, "string", "none"⟩)], true⟩ := by
  obtain ⟨-, h2⟩ := c8_removeItems ⟨3600, true, false, "",
      [("songs/1", RawVal.env ⟨.jsonText (.str "1"), 5, "string", "none"⟩),
       ("songs/2", RawVal.env ⟨.jsonText (.str "2"), 5, "string", "none"⟩),
       ("movies/1", RawVal.env ⟨.jsonText (.str "3"), 5, "string", "none"⟩)], true⟩
    "songs/*" (by decide) (by decide) (by decide)
  exact (h2 rfl).trans rfl

/-- C1 counterexample: an entry whose `expires` equals `now` (both `1000`)
while the device is online.  The claim (`expires <= now` AND online implies
rejection with `Expired`) predicts a rejection, but `getItem` resolves with
the decoded value: the code's expiry check is strict (`expires < now`). -/
theorem c1_boundary_counterexample :
    getItem ⟨3600, true, false, "",
        [("k", RawVal.env ⟨.jsonText (.str "x"), 1000, "string", "none"⟩)],
        true⟩ "k" 1000 = .ok (.str "x") := by
  rfl

/-- C1 (amended): with the cache enabled, for a stored envelope `e` under key
`key` whose decode succeeds, `getItem` rejects with `Expired` exactly when
`e.expires < now` holds strictly (not `expires <= now` as claimed; at
`expires = now` the entry is still served) and `invalidateOffline || online`
holds; in every other case — in particular for an expired entry while the
device is offline with `invalidateOffline = false` — it resolves with the
decoded value (offline grace). -/
theorem c1_getItem_expiry (st : CacheState) (key : String) (e : CacheEnvelope)
    (v : JSValue) (now : Int)
    (hen : st.cacheEnabled = true)
    (hget : storageGet st.keyPfx st.store key = some (.env e))
    (hdec : decodeRawData e = some v) :
    getItem st key now =
      if e.expires < now && (st.invalidateOffline || st.online)
      then CResult.err (.expired key) else .ok v := by
  simp [getItem, getRawItem, hen, hget, RawVal.expiresNum, hdec]

/-- Witness for the amended C1: an expired entry (expires 1000 < now 2000)
while online rejects with `Expired`. -/
theorem c1_getItem_expiry_witness :
    getItem ⟨3600, true, false, "",
        [("k", RawVal.env ⟨.jsonText (.str "x"), 1000, "string", "none"⟩)],
        true⟩ "k" 2000 = .err (.expired "k") := by
  exact (c1_getItem_expiry ⟨3600, true, false, "",
    [("k", RawVal.env ⟨.jsonText (.str "x"), 1000, "string", "none"⟩)], true⟩
    "k" ⟨.jsonText (.str "x"), 1000, "string", "none"⟩
    (.str "x") 2000 rfl rfl rfl).trans rfl

/-- C4 counterexample: with the cache disabled and an entry in the store,
`getRawItems` does not fail with the not-enabled error — it performs the
storage enumeration and resolves with the namespace contents (the method has
no `cacheEnabled` check), refuting the claim that every listed operation
fails fast when disabled. -/
theorem c4_getRawItems_no_gate :
    getRawItems ⟨3600, false, false, "",
        [("k", RawVal.env ⟨.jsonText (.str "x"), 5, "string", "none"⟩)], true⟩
      = .ok [("k", RawVal.env ⟨.jsonText (.str "x"), 5, "string", "none"⟩)] := by
  rfl

/-- C4 (amended): whenever `cacheEnabled` is false, the item and bulk
operations `saveItem`, `removeItem`, `removeItems`, `getRawItem`,
`itemExists`, `getItem`, `getOrSetItem`, `clearAll`, `clearExpired` and
`clearGroup` all fail with the not-enabled error before touching storage
(`getOrSetItem` surfaces it only after invoking its factory, recorded by the
final `true`), but `getRawItems` is NOT gated: it enumerates the namespace
and resolves even while disabled. -/
theorem c4_disable_gate (st : CacheState) (key pattern groupKey : String)
    (data factoryVal : JSValue) (ttl now : Int) (ignoreOnline : Bool)
    (hdis : st.cacheEnabled = false) :
    saveItem st key data groupKey ttl now = .err .notEnabled ∧
    removeItem st key = .err .notEnabled ∧
    removeItems st pattern = .err .notEnabled ∧
    getRawItem st key = .err .notEnabled ∧
    itemExists st key = .err .notEnabled ∧
    getItem st key now = .err .notEnabled ∧
    getOrSetItem st key factoryVal groupKey ttl now = (.err .notEnabled, st, true) ∧
    clearAll st = .err .notEnabled ∧
    clearExpired st ignoreOnline now = .err .notEnabled ∧
    clearGroup st groupKey = .err .notEnabled ∧
    getRawItems st = .ok (storageAll st.keyPfx st.store) := by
  simp [saveItem, removeItem, removeItems, getRawItem, itemExists, getItem,
    getOrSetItem, clearAll, clearExpired, clearGroup, getRawItems, hdis]

/-- Witness for the amended C4 at a concrete disabled state. -/
theorem c4_disable_gate_witness :
    getItem ⟨3600, false, false, "", [], true⟩ "k" 0 = .err .notEnabled ∧
    saveItem ⟨3600, false, false, "", [], true⟩ "k" (.str "v") "none" 10 0 =
      .err .notEnabled := by
  obtain ⟨h1, _, _, _, _, h6, _⟩ :=
    c4_disable_gate ⟨3600, false, false, "", [], true⟩ "k" "*" "g"
      (.str "v") (.str "f") 10 0 false rfl
  exact ⟨h6, h1⟩

/-- C10: with the cache enabled, `saveItem` on `null` or `undefined` data
throws the `TypeError` arising from the `data.constructor` dereference, so
no write reaches the storage adapter (the error result carries no store
update); the blob path is taken exactly when the data's constructor is named
`Blob` — it writes the blob's data URL under its MIME-type tag — while data
of every other constructor takes the JSON path. -/
theorem c10_saveItem_null_guard (st : CacheState) (key groupKey : String)
    (ttl now : Int) (hen : st.cacheEnabled = true) :
    saveItem st key .null groupKey ttl now = .err .typeErr ∧
    saveItem st key .undefined groupKey ttl now = .err .typeErr ∧
    (∀ mime bytes, saveItem st key (.blob mime bytes) groupKey ttl now =
      .ok { st with store := storageSet st.keyPfx st.store key (RawVal.env ⟨.dataUrlText mime bytes, now + ttl * 1000, mime, groupKey⟩) }) ∧
    (∀ data cn, constructorName data = some cn → cn ≠ "Blob" →
      saveItem st key data groupKey ttl now =
      .ok { st with store := storageSet st.keyPfx st.store key (RawVal.env ⟨.jsonText data, now + ttl * 1000, if isHttpResponse data then "response" else typeofJS data, groupKey⟩) }) := by
  refine ⟨by simp [saveItem, constructorName, hen],
    by simp [saveItem, constructorName, hen], ?_, ?_⟩
  · intro mime bytes
    simp [saveItem, constructorName, hen, saveBlobItem]
  · intro data cn hcn hne
    cases data with
    | null => simp [constructorName] at hcn
    | undefined => simp [constructorName] at hcn
    | bool b =>
      simp only [constructorName, Option.some.injEq] at hcn
      subst hcn
      simp [saveItem, hen, constructorName]
    | num n =>
      simp only [constructorName, Option.some.injEq] at hcn
      subst hcn
      simp [saveItem, hen, constructorName]
    | str s =>
      simp only [constructorName, Option.some.injEq] at hcn
      subst hcn
      simp [saveItem, hen, constructorName]
    | arr xs =>
      simp only [constructorName, Option.some.injEq] at hcn
      subst hcn
      simp [saveItem, hen, constructorName]
    | obj fs =>
      simp only [constructorName, Option.some.injEq] at hcn
      subst hcn
      simp [saveItem, hen, constructorName]
    | blob m bs =>
      simp only [constructorName, Option.some.injEq] at hcn
      exact absurd hcn.symm hne

/-- Witness for C10: saving `null` fails with the TypeError; saving a PNG
blob writes its data-URL envelope. -/
theorem c10_saveItem_null_guard_witness :
    saveItem ⟨3600, true, false, "", [], true⟩ "k" .null "none" 10 0 = .err .typeErr ∧
    saveItem ⟨3600, true, false, "", [], true⟩ "k" (.blob "image/png" [1, 2]) "none" 10 0 =
      .ok ⟨3600, true, false, "",
        [("k", RawVal.env ⟨.dataUrlText "image/png" [1, 2], 10000, "image/png", "none"⟩)],
        true⟩ := by
  obtain ⟨h1, _, h3, _⟩ :=
    c10_saveItem_null_guard ⟨3600, true, false, "", [], true⟩ "k" "none" 10 0 rfl
  exact ⟨h1, (h3 "image/png" [1, 2]).trans rfl⟩

/-- Witness for the amended C7 at the concrete prefix `"p:"` and key `"a"`. -/
theorem c7_buildKey_props_witness :
    buildKey "p:" (buildKey "p:" "a") = buildKey "p:" "a" ∧
    debuildKey "p:" (buildKey "p:" "a") = "a" ∧
    debuildKey "p:" (debuildKey "p:" "a") = debuildKey "p:" "a" := by
  obtain ⟨h1, h2, h3⟩ := c7_buildKey_props "p:" "a"
  exact ⟨h1, h2 (by decide), h3 (by decide)⟩

end IonicCache
